import Mathlib

/-!
Verification of the classification & timeline-projection engine of the
metric-visualization component (`src/components/MetricGraph.tsx`).

The component's pipeline is embedded shallowly:

* JavaScript string primitives (`split`, `trim`) and the stable
  `Array.prototype.sort` are modelled by executable Lean functions with the
  same semantics (`jsSplit`, `jsTrim`, `List.insertionSort`, which is the
  unique stable sorting function for a total preorder comparator).
* The external date library (`parseISO` from date-fns, together with the
  `isNaN` validity check) is an opaque parameter `parseISO : String → Option Int`,
  timestamps being epoch milliseconds.
* React `useState` cells become fields of an explicit `AppState`; a `useMemo`
  recomputation becomes a pure function of its dependencies.
* JavaScript `Map`/`Set` (insertion-ordered) become association lists with
  insertion-order preserving update.
-/

/-- JavaScript `String.prototype.split` with a one-character separator, on
character lists: `"".split(sep)` is `[""]`, and every separator occurrence
starts a new field. -/
def splitChar (sep : Char) : List Char → List (List Char)
  | [] => [[]]
  | c :: rest =>
      let r := splitChar sep rest
      if c = sep then [] :: r
      else
        match r with
        | [] => [[c]]
        | g :: gs => (c :: g) :: gs

/-- JavaScript `s.split(sep)` for a one-character separator. -/
def jsSplit (s : String) (sep : Char) : List String :=
  (splitChar sep s.data).map (fun cs => String.mk cs)

/-- The whitespace characters trimmed by JavaScript `String.prototype.trim`
(restricted to the ASCII ones that can occur in the CSV inputs). -/
def jsWhitespace (c : Char) : Bool :=
  c = ' ' || c = '\t' || c = '\n' || c = '\r' || c = '\x0b' || c = '\x0c'

/-- JavaScript `s.trim()`: drop leading and trailing whitespace. -/
def jsTrim (s : String) : String :=
  String.mk (((s.data.dropWhile jsWhitespace).reverse.dropWhile jsWhitespace).reverse)

/-- Code-point comparison of character lists, modelling the ascending string
order used through `a.id.localeCompare(b.id)` in the legend sort. -/
def charListLt : List Char → List Char → Bool
  | [], [] => false
  | [], _ :: _ => true
  | _ :: _, [] => false
  | a :: as, b :: bs => a.toNat < b.toNat || (a == b && charListLt as bs)

/-- String comparison backing the legend sort comparator. -/
def jsStrLt (a b : String) : Bool := charListLt a.data b.data

/-- One parsed CSV record (interface `MetricData` in the source). -/
structure MetricData where
  METRICID : String
  TIMESTAMP : String
deriving Repr, DecidableEq

/-- One timeline marker (interface `ProcessedLine` in the source); `timestamp`
is the `Date` as epoch milliseconds. -/
structure ProcessedLine where
  metricId : String
  timestamp : Int
  color : String
  label : String
  isSolid : Bool
  y : Int
deriving Repr, DecidableEq

/-- One legend entry (interface `UniqueMetric` in the source). -/
structure UniqueMetric where
  id : String
  color : String
deriving Repr, DecidableEq

/-- The category configuration of the component: the four member sets (from
the four comma-separated text inputs) and the four colors, in the order the
source declares them. -/
structure RuleConfig where
  expectedMetrics : List String
  actualMetrics : List String
  noiseMetrics : List String
  missingMetrics : List String
  expectedColor : String
  actualColor : String
  noiseColor : String
  missingColor : String
deriving Repr, DecidableEq

/-- The lines of the CSV text: `csvString.trim().split('\n')`. -/
def csvLines (csvString : String) : List String :=
  jsSplit (jsTrim csvString) '\n'

/-- The fields of one CSV line: `line.split(',').map(v => v.trim())`. -/
def rowValues (line : String) : List String :=
  (jsSplit line ',').map jsTrim

/-- The body of the row loop of `parseCsv`: a data row contributes one record
when it has more fields than the larger required column index
(`values.length > Math.max(metricIdIndex, timestampIndex)`), and is silently
skipped otherwise. -/
def rowRecord (metricIdIndex timestampIndex : Nat) (line : String) : List MetricData :=
  let values := rowValues line
  if values.length > max metricIdIndex timestampIndex then
    [{ METRICID := values.getD metricIdIndex "",
       TIMESTAMP := values.getD timestampIndex "" }]
  else []

/-- `parseCsv` from the source: split into lines, locate the `METRICID` and
`TIMESTAMP` header columns by exact match, throw when either is absent
(modelled as `Except.error`), then collect one record per sufficiently long
data row. -/
def parseCsv (csvString : String) : Except String (List MetricData) :=
  let lines := csvLines csvString
  if lines = [] then .ok []
  else
    let headers := rowValues (lines.headD "")
    match headers.indexOf? "METRICID", headers.indexOf? "TIMESTAMP" with
    | some metricIdIndex, some timestampIndex =>
        .ok ((lines.drop 1).foldl
          (fun data line => data ++ rowRecord metricIdIndex timestampIndex line) [])
    | _, _ => .error "CSV must contain METRICID and TIMESTAMP columns."

/-- A category member set parsed from its text input:
`input.split(',').map(s => s.trim()).filter(Boolean)`. -/
def parseMetricSet (s : String) : List String :=
  ((jsSplit s ',').map jsTrim).filter (fun x => x != "")

/-- The category chain of `processedGraphData`: expected, then actual, then
missing-but-found, then noise; the result is the pair of plotting color and
base label, or `none` for an identifier in no member set. -/
def classify (cfg : RuleConfig) (metricId : String) : Option (String × String) :=
  if metricId ∈ cfg.expectedMetrics then
    some (cfg.expectedColor, "Expected: " ++ metricId)
  else if metricId ∈ cfg.actualMetrics then
    some (cfg.actualColor, "Actual: " ++ metricId)
  else if metricId ∈ cfg.missingMetrics then
    some (cfg.missingColor, "Missing (Found): " ++ metricId)
  else if metricId ∈ cfg.noiseMetrics then
    some (cfg.noiseColor, "Noise: " ++ metricId)
  else none

/-- One category rule of the specification's rule-set view of the
configuration. -/
structure CategoryRule where
  categoryName : String
  memberIdentifiers : List String
  color : String
deriving Repr, DecidableEq

/-- The configured precedence order of the category rules, as the source's
if-chain orders them. -/
def ruleOrder (cfg : RuleConfig) : List CategoryRule :=
  [⟨"Expected", cfg.expectedMetrics, cfg.expectedColor⟩,
   ⟨"Actual", cfg.actualMetrics, cfg.actualColor⟩,
   ⟨"Missing (Found)", cfg.missingMetrics, cfg.missingColor⟩,
   ⟨"Noise", cfg.noiseMetrics, cfg.noiseColor⟩]

/-- Modelled from the spec: first-match classification over an ordered rule
list, used to compare the source's if-chain against the specification's
`classify(identifiers, ruleSet)` contract. -/
def firstMatch (rules : List CategoryRule) (metricId : String) : Option CategoryRule :=
  rules.find? (fun r => r.memberIdentifiers.contains metricId)

/-- `metricMap.get(id).push(t)` with insertion-ordered keys, as a JavaScript
`Map<string, Date[]>` behaves. -/
def pushTs (m : List (String × List Int)) (id : String) (t : Int) :
    List (String × List Int) :=
  match m with
  | [] => [(id, [t])]
  | (k, ts) :: rest =>
      if k = id then (k, ts ++ [t]) :: rest
      else (k, ts) :: pushTs rest id t

/-- The grouping pass of `processedGraphData`: parse each record's timestamp
(dropping records whose timestamp is unparsable, the `isNaN` check), group the
valid timestamps per identifier, and record every identifier seen with a valid
timestamp (`allCsvMetricIds`). -/
def buildMaps (parseISO : String → Option Int) (csvData : List MetricData) :
    List (String × List Int) × List String :=
  csvData.foldl
    (fun acc item =>
      match parseISO item.TIMESTAMP with
      | none => acc
      | some t =>
          (pushTs acc.1 item.METRICID t,
           if item.METRICID ∈ acc.2 then acc.2 else acc.2 ++ [item.METRICID]))
    ([], [])

/-- The per-identifier timestamp sort `timestamps.sort((a, b) => a - b)`
(a stable ascending sort). -/
def sortTimestamps (ts : List Int) : List Int :=
  List.insertionSort (fun a b : Int => a ≤ b) ts

/-- The marker emission of `processedGraphData` for one identifier with sorted
timestamps: one dotted instant for a single timestamp, a dotted start marker at
the oldest and a solid end marker at the latest for two or more. -/
def markersFor (metricId color baseLabel : String) : List Int → List ProcessedLine
  | [] => []
  | [t] => [⟨metricId, t, color, baseLabel, false, 0⟩]
  | t :: u :: rest =>
      [⟨metricId, t, color, baseLabel ++ " (start)", false, 0⟩,
       ⟨metricId, (u :: rest).getLastD t, color, baseLabel ++ " (end)", true, 0⟩]

/-- One step of the `metricMap.forEach` loop of `processedGraphData`: classify
the identifier, skip it when it matches no category, otherwise append its
markers and (if not already present) its legend entry. -/
def elStep (cfg : RuleConfig) (acc : List ProcessedLine × List UniqueMetric)
    (entry : String × List Int) : List ProcessedLine × List UniqueMetric :=
  match classify cfg entry.1 with
  | none => acc
  | some cl =>
      (acc.1 ++ markersFor entry.1 cl.1 cl.2 (sortTimestamps entry.2),
       if acc.2.any (fun m => m.id == entry.1) then acc.2
       else acc.2 ++ [⟨entry.1, cl.1⟩])

/-- The `metricMap.forEach` loop of `processedGraphData`: the unsorted
`graphElements` and the legend accumulated over the grouped identifiers. -/
def entriesAndLegend (cfg : RuleConfig) (metricMap : List (String × List Int)) :
    List ProcessedLine × List UniqueMetric :=
  metricMap.foldl (elStep cfg) ([], [])

/-- The markers one grouped identifier contributes to `graphElements`
(the first component of `elStep`, in isolation). -/
def perEntryMarkers (cfg : RuleConfig) (entry : String × List Int) : List ProcessedLine :=
  match classify cfg entry.1 with
  | none => []
  | some cl => markersFor entry.1 cl.1 cl.2 (sortTimestamps entry.2)

/-- One step of the `missingMetrics.forEach` pass of `processedGraphData`: an
identifier of the missing member set that never occurs in the data receives a
legend entry (with the missing color) and nothing else. -/
def missingStep (cfg : RuleConfig) (allCsvMetricIds : List String)
    (acc : List UniqueMetric) (metricId : String) : List UniqueMetric :=
  if metricId ∈ allCsvMetricIds then acc
  else if acc.any (fun m => m.id == metricId) then acc
  else acc ++ [⟨metricId, cfg.missingColor⟩]

/-- The `missingMetrics.forEach` pass of `processedGraphData`. -/
def addMissingLegend (cfg : RuleConfig) (allCsvMetricIds : List String)
    (um : List UniqueMetric) : List UniqueMetric :=
  cfg.missingMetrics.foldl (missingStep cfg allCsvMetricIds) um

/-- The timeline ordering relation of
`graphElements.sort((a, b) => a.timestamp.getTime() - b.timestamp.getTime())`. -/
def tsLe (a b : ProcessedLine) : Prop := a.timestamp ≤ b.timestamp

instance : DecidableRel tsLe :=
  fun a b => inferInstanceAs (Decidable (a.timestamp ≤ b.timestamp))

instance : IsTotal ProcessedLine tsLe :=
  ⟨fun a b => Int.le_total a.timestamp b.timestamp⟩

instance : IsTrans ProcessedLine tsLe :=
  ⟨fun _ _ _ h h2 => le_trans h h2⟩

/-- The legend ordering relation of
`.sort((a, b) => a.id.localeCompare(b.id))`. -/
def idLe (a b : UniqueMetric) : Prop := jsStrLt b.id a.id = false

instance : DecidableRel idLe :=
  fun a b => inferInstanceAs (Decidable (jsStrLt b.id a.id = false))

/-- The global stable timeline sort of `processedGraphData`. -/
def sortGraphElements (l : List ProcessedLine) : List ProcessedLine :=
  List.insertionSort tsLe l

/-- The stable legend sort of `uniqueMetrics`. -/
def sortUniqueMetrics (l : List UniqueMetric) : List UniqueMetric :=
  List.insertionSort idLe l

/-- The pair returned by the `processedGraphData` memo. -/
structure GraphOutput where
  processedGraphData : List ProcessedLine
  uniqueMetrics : List UniqueMetric
deriving Repr, DecidableEq

/-- The whole `processedGraphData` computation: group, classify and reduce per
identifier, append legend entries for truly missing identifiers, sort the
timeline by timestamp and the legend by identifier. -/
def processedGraph (parseISO : String → Option Int) (cfg : RuleConfig)
    (csvData : List MetricData) : GraphOutput :=
  let maps := buildMaps parseISO csvData
  let el := entriesAndLegend cfg maps.1
  { processedGraphData := sortGraphElements el.1
    uniqueMetrics := sortUniqueMetrics (addMissingLegend cfg maps.2 el.2) }

/-- The `chartDomain` memo: `[0, 1]` for an empty timeline, otherwise the
min/max timestamp padded by `(maxTime - minTime) * 0.05 || 10000`. -/
def chartDomain (pgd : List ProcessedLine) : ℚ × ℚ :=
  match pgd with
  | [] => (0, 1)
  | p :: rest =>
      let allTimestamps := (p :: rest).map (fun q => q.timestamp)
      let minTime := allTimestamps.foldl min p.timestamp
      let maxTime := allTimestamps.foldl max p.timestamp
      let padding : ℚ :=
        if ((maxTime : ℚ) - (minTime : ℚ)) * (5 / 100) = 0 then 10000
        else ((maxTime : ℚ) - (minTime : ℚ)) * (5 / 100)
      ((minTime : ℚ) - padding, (maxTime : ℚ) + padding)

/-- The legend click handler `handleLegendClick`: remove the identifier from
the selection when present (`prev.filter(id => id !== metricId)`), append it
when absent. -/
def handleLegendClick (prev : List String) (metricId : String) : List String :=
  if metricId ∈ prev then prev.filter (fun id => id != metricId)
  else prev ++ [metricId]

/-- The per-marker emphasis computed by `CustomDot`. -/
structure DotStyle where
  strokeWidth : ℚ
  strokeOpacity : ℚ
deriving Repr, DecidableEq

/-- `CustomDot`: a marker is active when its identifier is selected or
hovered; when any selection or hover exists, inactive markers are dimmed. -/
def customDotStyle (selectedMetricIds : List String) (hoveredMetricId : Option String)
    (metricId : String) : DotStyle :=
  let isClicked := selectedMetricIds.contains metricId
  let isHovered := hoveredMetricId == some metricId
  let isActive := isClicked || isHovered
  let isFilteredView := decide (selectedMetricIds.length > 0) || !(hoveredMetricId == none)
  let isDimmed := isFilteredView && !isActive
  { strokeWidth := if isActive then 3 else 3 / 2
    strokeOpacity := if isDimmed then 1 / 5 else 1 }

/-- The rendered marker list: every timeline entry paired with its emphasis. -/
def renderedDots (out : GraphOutput) (selectedMetricIds : List String)
    (hoveredMetricId : Option String) : List (ProcessedLine × DotStyle) :=
  out.processedGraphData.map
    (fun e => (e, customDotStyle selectedMetricIds hoveredMetricId e.metricId))

/-- The component's `useState` cells. -/
structure AppState where
  csvData : List MetricData
  expectedMetricsInput : String
  actualMetricsInput : String
  noiseMetricsInput : String
  missingMetricsInput : String
  expectedColor : String
  actualColor : String
  noiseColor : String
  missingColor : String
  selectedMetricIds : List String
  hoveredMetricId : Option String
deriving Repr, DecidableEq

/-- The category configuration derived from the state's text inputs and
colors. -/
def ruleConfigOf (s : AppState) : RuleConfig :=
  { expectedMetrics := parseMetricSet s.expectedMetricsInput
    actualMetrics := parseMetricSet s.actualMetricsInput
    noiseMetrics := parseMetricSet s.noiseMetricsInput
    missingMetrics := parseMetricSet s.missingMetricsInput
    expectedColor := s.expectedColor
    actualColor := s.actualColor
    noiseColor := s.noiseColor
    missingColor := s.missingColor }

/-- The derived structures recomputed from the state (the `useMemo` chain). -/
def derivedOutput (parseISO : String → Option Int) (s : AppState) : GraphOutput :=
  processedGraph parseISO (ruleConfigOf s) s.csvData

/-- `handleFileUpload` on the loaded text: replace `csvData` and report
success when parsing succeeds; report failure and change nothing when
`parseCsv` throws. The boolean is the toast's success flag. -/
def handleFileUpload (s : AppState) (text : String) : AppState × Bool :=
  match parseCsv text with
  | .ok parsed => ({ s with csvData := parsed }, true)
  | .error _ => (s, false)

/-! ### Supporting lemmas -/

theorem splitChar_ne_nil (sep : Char) (cs : List Char) : splitChar sep cs ≠ [] := by
  induction cs with
  | nil => simp [splitChar]
  | cons c rest ih =>
      simp only [splitChar]
      split
      · simp
      · split
        · simp
        · simp

theorem jsSplit_ne_nil (s : String) (sep : Char) : jsSplit s sep ≠ [] := by
  unfold jsSplit
  simpa using splitChar_ne_nil sep s.data

theorem csvLines_ne_nil (s : String) : csvLines s ≠ [] :=
  jsSplit_ne_nil (jsTrim s) '\n'

theorem foldl_append_eq_flatMap {α β : Type} (f : α → List β) :
    ∀ (l : List α) (init : List β),
      l.foldl (fun acc x => acc ++ f x) init = init ++ l.flatMap f
  | [], init => by simp
  | x :: l, init => by
      rw [List.foldl_cons, foldl_append_eq_flatMap f l, List.flatMap_cons,
        List.append_assoc]

theorem foldl_elStep_fst (cfg : RuleConfig) :
    ∀ (mm : List (String × List Int)) (acc : List ProcessedLine × List UniqueMetric),
      (mm.foldl (elStep cfg) acc).1 = acc.1 ++ mm.flatMap (perEntryMarkers cfg)
  | [], acc => by simp
  | e :: mm, acc => by
      rw [List.foldl_cons, foldl_elStep_fst cfg mm, List.flatMap_cons]
      unfold elStep perEntryMarkers
      cases classify cfg e.1 <;> simp [List.append_assoc]

theorem entriesAndLegend_fst (cfg : RuleConfig) (mm : List (String × List Int)) :
    (entriesAndLegend cfg mm).1 = mm.flatMap (perEntryMarkers cfg) := by
  unfold entriesAndLegend
  rw [foldl_elStep_fst]
  simp

theorem markersFor_mem_metricId (metricId color baseLabel : String) (ts : List Int)
    (e : ProcessedLine) (h : e ∈ markersFor metricId color baseLabel ts) :
    e.metricId = metricId := by
  match ts with
  | [] => simp [markersFor] at h
  | [t] =>
      simp only [markersFor, List.mem_singleton] at h
      rw [h]
  | t :: u :: rest =>
      simp only [markersFor, List.mem_cons, List.mem_singleton, List.not_mem_nil,
        or_false] at h
      rcases h with h | h <;> rw [h]

theorem entriesAndLegend_fst_mem (cfg : RuleConfig) (mm : List (String × List Int))
    (e : ProcessedLine) (h : e ∈ (entriesAndLegend cfg mm).1) :
    e.metricId ∈ mm.map Prod.fst ∧ (classify cfg e.metricId).isSome := by
  rw [entriesAndLegend_fst] at h
  rcases List.mem_flatMap.1 h with ⟨entry, hentry, he⟩
  unfold perEntryMarkers at he
  cases hc : classify cfg entry.1 with
  | none => rw [hc] at he; simp at he
  | some cl =>
      rw [hc] at he
      have hid := markersFor_mem_metricId _ _ _ _ _ he
      constructor
      · rw [hid]; exact List.mem_map_of_mem Prod.fst hentry
      · rw [hid, hc]; rfl

theorem foldl_elStep_snd_mem (cfg : RuleConfig) :
    ∀ (mm : List (String × List Int)) (acc : List ProcessedLine × List UniqueMetric)
      (m : UniqueMetric), m ∈ (mm.foldl (elStep cfg) acc).2 →
      m ∈ acc.2 ∨ (m.id ∈ mm.map Prod.fst ∧ (classify cfg m.id).isSome)
  | [], _, _, h => Or.inl h
  | e :: mm, acc, m, h => by
      rw [List.foldl_cons] at h
      rcases foldl_elStep_snd_mem cfg mm (elStep cfg acc e) m h with h2 | h2
      · unfold elStep at h2
        cases hc : classify cfg e.1 with
        | none => rw [hc] at h2; exact Or.inl h2
        | some cl =>
            rw [hc] at h2
            dsimp only at h2
            by_cases hany : acc.2.any (fun x => x.id == e.1)
            · rw [if_pos hany] at h2; exact Or.inl h2
            · rw [if_neg hany] at h2
              rcases List.mem_append.1 h2 with h3 | h3
              · exact Or.inl h3
              · refine Or.inr ⟨?_, ?_⟩
                · rw [List.mem_singleton.1 h3]
                  exact List.mem_cons_self _ _
                · rw [List.mem_singleton.1 h3]
                  show (classify cfg e.1).isSome = true
                  rw [hc]
                  rfl
      · exact Or.inr ⟨List.mem_cons_of_mem _ h2.1, h2.2⟩

theorem pushTs_keys_mem (id : String) (t : Int) :
    ∀ (m : List (String × List Int)) (k : String),
      k ∈ (pushTs m id t).map Prod.fst → k ∈ m.map Prod.fst ∨ k = id
  | [], k, h => by
      simp only [pushTs, List.map_cons, List.map_nil, List.mem_singleton] at h
      exact Or.inr h
  | (k0, ts) :: rest, k, h => by
      rw [pushTs] at h
      by_cases hk : k0 = id
      · rw [if_pos hk] at h
        simp only [List.map_cons, List.mem_cons] at h ⊢
        exact Or.inl h
      · rw [if_neg hk] at h
        simp only [List.map_cons, List.mem_cons] at h ⊢
        rcases h with h | h
        · exact Or.inl (Or.inl h)
        · rcases pushTs_keys_mem id t rest k h with h2 | h2
          · exact Or.inl (Or.inr h2)
          · exact Or.inr h2

theorem buildMaps_foldl_mem (parseISO : String → Option Int) :
    ∀ (csvData : List MetricData) (acc : List (String × List Int) × List String)
      (k : String),
      (k ∈ (csvData.foldl (fun acc item =>
          match parseISO item.TIMESTAMP with
          | none => acc
          | some t =>
              (pushTs acc.1 item.METRICID t,
               if item.METRICID ∈ acc.2 then acc.2 else acc.2 ++ [item.METRICID])) acc).1.map Prod.fst →
        k ∈ acc.1.map Prod.fst ∨ k ∈ csvData.map MetricData.METRICID) ∧
      (k ∈ (csvData.foldl (fun acc item =>
          match parseISO item.TIMESTAMP with
          | none => acc
          | some t =>
              (pushTs acc.1 item.METRICID t,
               if item.METRICID ∈ acc.2 then acc.2 else acc.2 ++ [item.METRICID])) acc).2 →
        k ∈ acc.2 ∨ k ∈ csvData.map MetricData.METRICID)
  | [], acc, k => ⟨fun h => Or.inl h, fun h => Or.inl h⟩
  | item :: csvData, acc, k => by
      constructor
      · intro h
        rw [List.foldl_cons] at h
        cases hp : parseISO item.TIMESTAMP with
        | none =>
            rw [hp] at h
            rcases (buildMaps_foldl_mem parseISO csvData acc k).1 h with h2 | h2
            · exact Or.inl h2
            · exact Or.inr (List.mem_cons_of_mem _ h2)
        | some t =>
            rw [hp] at h
            rcases (buildMaps_foldl_mem parseISO csvData _ k).1 h with h2 | h2
            · rcases pushTs_keys_mem item.METRICID t acc.1 k h2 with h3 | h3
              · exact Or.inl h3
              · rw [h3]
                exact Or.inr (List.mem_cons_self _ _)
            · exact Or.inr (List.mem_cons_of_mem _ h2)
      · intro h
        rw [List.foldl_cons] at h
        cases hp : parseISO item.TIMESTAMP with
        | none =>
            rw [hp] at h
            rcases (buildMaps_foldl_mem parseISO csvData acc k).2 h with h2 | h2
            · exact Or.inl h2
            · exact Or.inr (List.mem_cons_of_mem _ h2)
        | some t =>
            rw [hp] at h
            rcases (buildMaps_foldl_mem parseISO csvData _ k).2 h with h2 | h2
            · dsimp only at h2
              by_cases hmem : item.METRICID ∈ acc.2
              · rw [if_pos hmem] at h2
                exact Or.inl h2
              · rw [if_neg hmem] at h2
                rcases List.mem_append.1 h2 with h3 | h3
                · exact Or.inl h3
                · rw [List.mem_singleton.1 h3]
                  exact Or.inr (List.mem_cons_self _ _)
            · exact Or.inr (List.mem_cons_of_mem _ h2)

theorem buildMaps_keys_sub (parseISO : String → Option Int) (csvData : List MetricData)
    (k : String) (h : k ∈ (buildMaps parseISO csvData).1.map Prod.fst) :
    k ∈ csvData.map MetricData.METRICID := by
  rcases (buildMaps_foldl_mem parseISO csvData ([], []) k).1 h with h2 | h2
  · simp at h2
  · exact h2

theorem buildMaps_ids_sub (parseISO : String → Option Int) (csvData : List MetricData)
    (k : String) (h : k ∈ (buildMaps parseISO csvData).2) :
    k ∈ csvData.map MetricData.METRICID := by
  rcases (buildMaps_foldl_mem parseISO csvData ([], []) k).2 h with h2 | h2
  · simp at h2
  · exact h2

theorem missingStep_mem (cfg : RuleConfig) (allCsvMetricIds : List String) :
    ∀ (ms : List String) (um : List UniqueMetric) (m : UniqueMetric),
      m ∈ ms.foldl (missingStep cfg allCsvMetricIds) um →
      m ∈ um ∨ (m.id ∈ ms ∧ m.color = cfg.missingColor)
  | [], _, _, h => Or.inl h
  | x :: ms, um, m, h => by
      rw [List.foldl_cons] at h
      rcases missingStep_mem cfg allCsvMetricIds ms _ m h with h2 | h2
      · unfold missingStep at h2
        by_cases hx : x ∈ allCsvMetricIds
        · rw [if_pos hx] at h2
          exact Or.inl h2
        · rw [if_neg hx] at h2
          by_cases hany : um.any (fun y => y.id == x)
          · rw [if_pos hany] at h2
            exact Or.inl h2
          · rw [if_neg hany] at h2
            rcases List.mem_append.1 h2 with h3 | h3
            · exact Or.inl h3
            · rw [List.mem_singleton.1 h3]
              exact Or.inr ⟨List.mem_cons_self _ _, rfl⟩
      · exact Or.inr ⟨List.mem_cons_of_mem _ h2.1, h2.2⟩

theorem missingFold_filter_frozen (cfg : RuleConfig) (allCsvMetricIds : List String)
    (id : String) :
    ∀ (ms : List String) (um : List UniqueMetric),
      um.any (fun m => m.id == id) = true →
      (ms.foldl (missingStep cfg allCsvMetricIds) um).filter (fun m => m.id == id)
        = um.filter (fun m => m.id == id)
  | [], _, _ => rfl
  | x :: ms, um, hany => by
      rw [List.foldl_cons]
      simp only [missingStep]
      by_cases hx : x ∈ allCsvMetricIds
      · rw [if_pos hx]
        exact missingFold_filter_frozen cfg allCsvMetricIds id ms um hany
      · rw [if_neg hx]
        by_cases hxany : um.any (fun y => y.id == x)
        · rw [if_pos hxany]
          exact missingFold_filter_frozen cfg allCsvMetricIds id ms um hany
        · rw [if_neg hxany]
          have hxid : x ≠ id := by
            intro hxeq
            rw [hxeq] at hxany
            exact hxany hany
          have hany2 : (um ++ [UniqueMetric.mk x cfg.missingColor]).any
              (fun m => m.id == id) = true := by
            rw [List.any_append, hany, Bool.true_or]
          rw [missingFold_filter_frozen cfg allCsvMetricIds id ms _ hany2,
            List.filter_append]
          have hone : ([UniqueMetric.mk x cfg.missingColor]).filter
              (fun m => m.id == id) = [] := by
            simp [hxid]
          rw [hone, List.append_nil]

theorem missingFold_filter_adds (cfg : RuleConfig) (allCsvMetricIds : List String)
    (id : String) (hid : id ∉ allCsvMetricIds) :
    ∀ (ms : List String) (um : List UniqueMetric),
      id ∈ ms → um.filter (fun m => m.id == id) = [] →
      (ms.foldl (missingStep cfg allCsvMetricIds) um).filter (fun m => m.id == id)
        = [⟨id, cfg.missingColor⟩]
  | [], _, hmem, _ => absurd hmem (List.not_mem_nil id)
  | x :: ms, um, hmem, hfil => by
      rw [List.foldl_cons]
      simp only [missingStep]
      have humany : um.any (fun m => m.id == id) = false := by
        rw [List.any_eq_false]
        intro m hm
        have := List.filter_eq_nil_iff.1 hfil m hm
        simpa using this
      by_cases hxid : x = id
      · subst hxid
        rw [if_neg hid, if_neg (by rw [humany]; exact Bool.false_ne_true)]
        have hany2 : (um ++ [UniqueMetric.mk x cfg.missingColor]).any
            (fun m => m.id == x) = true := by
          rw [List.any_append]
          simp
        rw [missingFold_filter_frozen cfg allCsvMetricIds x ms _ hany2,
          List.filter_append, hfil, List.nil_append]
        simp
      · have hmem2 : id ∈ ms := by
          rcases List.mem_cons.1 hmem with h | h
          · exact absurd h.symm hxid
          · exact h
        by_cases hx : x ∈ allCsvMetricIds
        · rw [if_pos hx]
          exact missingFold_filter_adds cfg allCsvMetricIds id hid ms um hmem2 hfil
        · rw [if_neg hx]
          by_cases hxany : um.any (fun y => y.id == x)
          · rw [if_pos hxany]
            exact missingFold_filter_adds cfg allCsvMetricIds id hid ms um hmem2 hfil
          · rw [if_neg hxany]
            have hfil2 : (um ++ [UniqueMetric.mk x cfg.missingColor]).filter
                (fun m => m.id == id) = [] := by
              rw [List.filter_append, hfil, List.nil_append]
              simp [hxid]
            exact missingFold_filter_adds cfg allCsvMetricIds id hid ms _ hmem2 hfil2

theorem pairwise_head_le (a : Int) (l : List Int)
    (h : (a :: l).Pairwise (fun x y : Int => x ≤ y)) :
    ∀ x ∈ a :: l, a ≤ x := by
  intro x hx
  rcases List.mem_cons.1 hx with rfl | hx
  · exact le_refl x
  · exact List.rel_of_pairwise_cons h hx

theorem pairwise_le_getLastD (d : Int) :
    ∀ (l : List Int), l.Pairwise (fun x y : Int => x ≤ y) →
      ∀ x ∈ l, x ≤ l.getLastD d
  | [], _, x, hx => absurd hx (List.not_mem_nil x)
  | b :: l, h, x, hx => by
      rw [List.getLastD_cons]
      have htail := List.Pairwise.sublist (List.sublist_cons_self b l) h
      rcases List.mem_cons.1 hx with rfl | hx
      · cases l with
        | nil => exact le_refl x
        | cons c l2 =>
            have hmem := List.getLastD_mem_cons (c :: l2) x
            exact pairwise_head_le x (c :: l2) h _ hmem
      · exact pairwise_le_getLastD b l htail x hx

theorem sortTimestamps_pairwise (ts : List Int) :
    (sortTimestamps ts).Pairwise (fun x y : Int => x ≤ y) :=
  List.sorted_insertionSort (fun a b : Int => a ≤ b) ts

theorem sortTimestamps_perm (ts : List Int) : List.Perm (sortTimestamps ts) ts :=
  List.perm_insertionSort (fun a b : Int => a ≤ b) ts

theorem sortTimestamps_length (ts : List Int) :
    (sortTimestamps ts).length = ts.length :=
  (sortTimestamps_perm ts).length_eq

theorem insertionSort_filter_ts (l : List ProcessedLine) (t : Int) :
    (sortGraphElements l).filter (fun e => e.timestamp == t)
      = l.filter (fun e => e.timestamp == t) := by
  have hpw : (l.filter (fun e => e.timestamp == t)).Pairwise tsLe := by
    apply List.pairwise_of_forall_mem_list
    intro a ha b hb
    have ha2 := List.of_mem_filter ha
    have hb2 := List.of_mem_filter hb
    simp only [beq_iff_eq] at ha2 hb2
    unfold tsLe
    rw [ha2, hb2]
  have hsub : List.Sublist (l.filter (fun e => e.timestamp == t)) (sortGraphElements l) :=
    List.sublist_insertionSort hpw (List.filter_sublist l)
  have hself : (l.filter (fun e => e.timestamp == t)).filter (fun e => e.timestamp == t)
      = l.filter (fun e => e.timestamp == t) :=
    List.filter_eq_self.2 (fun a ha => (List.mem_filter.1 ha).2)
  have hsub2 : List.Sublist (l.filter (fun e => e.timestamp == t))
      ((sortGraphElements l).filter (fun e => e.timestamp == t)) := by
    have h2 := hsub.filter (fun e => e.timestamp == t)
    rwa [hself] at h2
  have hlen : ((sortGraphElements l).filter (fun e => e.timestamp == t)).length
      = (l.filter (fun e => e.timestamp == t)).length :=
    ((List.perm_insertionSort tsLe l).filter (fun e => e.timestamp == t)).length_eq
  exact (hsub2.eq_of_length hlen.symm).symm

theorem foldl_min_le_init : ∀ (l : List Int) (a : Int), l.foldl min a ≤ a
  | [], a => le_refl a
  | x :: l, a => le_trans (foldl_min_le_init l (min a x)) (min_le_left a x)

theorem foldl_min_le_mem : ∀ (l : List Int) (a : Int), ∀ x ∈ l, l.foldl min a ≤ x
  | [], _, x, hx => absurd hx (List.not_mem_nil x)
  | y :: l, a, x, hx => by
      rcases List.mem_cons.1 hx with rfl | hx
      · exact le_trans (foldl_min_le_init l (min a x)) (min_le_right a x)
      · exact foldl_min_le_mem l (min a y) x hx

theorem foldl_min_mem : ∀ (l : List Int) (a : Int), l.foldl min a ∈ a :: l
  | [], a => List.mem_cons_self a []
  | x :: l, a => by
      have h := foldl_min_mem l (min a x)
      rw [List.foldl_cons]
      rcases List.mem_cons.1 h with h2 | h2
      · rcases min_choice a x with h3 | h3 <;> rw [h2, h3]
        · exact List.mem_cons_self _ _
        · exact List.mem_cons_of_mem _ (List.mem_cons_self _ _)
      · exact List.mem_cons_of_mem _ (List.mem_cons_of_mem _ h2)

theorem foldl_max_init_le : ∀ (l : List Int) (a : Int), a ≤ l.foldl max a
  | [], a => le_refl a
  | x :: l, a => le_trans (le_max_left a x) (foldl_max_init_le l (max a x))

theorem foldl_max_mem_le : ∀ (l : List Int) (a : Int), ∀ x ∈ l, x ≤ l.foldl max a
  | [], _, x, hx => absurd hx (List.not_mem_nil x)
  | y :: l, a, x, hx => by
      rcases List.mem_cons.1 hx with rfl | hx
      · exact le_trans (le_max_right a x) (foldl_max_init_le l (max a x))
      · exact foldl_max_mem_le l (max a y) x hx

theorem foldl_max_mem : ∀ (l : List Int) (a : Int), l.foldl max a ∈ a :: l
  | [], a => List.mem_cons_self a []
  | x :: l, a => by
      have h := foldl_max_mem l (max a x)
      rw [List.foldl_cons]
      rcases List.mem_cons.1 h with h2 | h2
      · rcases max_choice a x with h3 | h3 <;> rw [h2, h3]
        · exact List.mem_cons_self _ _
        · exact List.mem_cons_of_mem _ (List.mem_cons_self _ _)
      · exact List.mem_cons_of_mem _ (List.mem_cons_of_mem _ h2)

theorem classify_eq_none_iff (cfg : RuleConfig) (metricId : String) :
    classify cfg metricId = none ↔
      metricId ∉ cfg.expectedMetrics ∧ metricId ∉ cfg.actualMetrics ∧
      metricId ∉ cfg.missingMetrics ∧ metricId ∉ cfg.noiseMetrics := by
  unfold classify
  split_ifs with h1 h2 h3 h4 <;> simp_all

/-! ### Claim theorems -/

/-- C9: `toggleSelect` (the legend click handler) is a pure set-toggle: it
appends the identifier when absent, removes it when present, and toggling
twice in a row returns the selection set (membership-wise) to its original
value. -/
theorem toggleSelect_set_toggle (prev : List String) (metricId : String) :
    (metricId ∉ prev → handleLegendClick prev metricId = prev ++ [metricId]) ∧
    (metricId ∈ prev →
      handleLegendClick prev metricId = prev.filter (fun id => id != metricId)) ∧
    (∀ x, x ∈ handleLegendClick (handleLegendClick prev metricId) metricId ↔ x ∈ prev) := by
  refine ⟨fun h => by rw [handleLegendClick, if_neg h],
    fun h => by rw [handleLegendClick, if_pos h], ?_⟩
  intro x
  by_cases h : metricId ∈ prev
  · have e1 : handleLegendClick prev metricId = prev.filter (fun id => id != metricId) := by
      rw [handleLegendClick, if_pos h]
    have hnot : metricId ∉ prev.filter (fun id => id != metricId) := by
      intro hmem
      have h2 := (List.mem_filter.1 hmem).2
      simp at h2
    have e2 : handleLegendClick (prev.filter (fun id => id != metricId)) metricId
        = prev.filter (fun id => id != metricId) ++ [metricId] := by
      rw [handleLegendClick, if_neg hnot]
    rw [e1, e2]
    constructor
    · intro hx
      rcases List.mem_append.1 hx with hx | hx
      · exact (List.mem_filter.1 hx).1
      · rw [List.mem_singleton.1 hx]
        exact h
    · intro hx
      by_cases hxm : x = metricId
      · exact List.mem_append.2 (Or.inr (List.mem_singleton.2 hxm))
      · refine List.mem_append.2 (Or.inl (List.mem_filter.2 ⟨hx, ?_⟩))
        simpa using hxm
  · have e1 : handleLegendClick prev metricId = prev ++ [metricId] := by
      rw [handleLegendClick, if_neg h]
    have hmem : metricId ∈ prev ++ [metricId] :=
      List.mem_append.2 (Or.inr (List.mem_singleton.2 rfl))
    have e2 : handleLegendClick (prev ++ [metricId]) metricId
        = (prev ++ [metricId]).filter (fun id => id != metricId) := by
      rw [handleLegendClick, if_pos hmem]
    have h1 : prev.filter (fun id => id != metricId) = prev := by
      refine List.filter_eq_self.2 (fun a ha => ?_)
      simp only [bne_iff_ne, ne_eq, decide_eq_true_eq]
      intro heq
      exact h (heq ▸ ha)
    have h2 : ([metricId] : List String).filter (fun id => id != metricId) = [] := by
      simp
    rw [e1, e2, List.filter_append, h1, h2, List.append_nil]

/-- C9 witness: toggling an absent identifier appends it, toggling a present
identifier removes it, and a double toggle restores membership. -/
theorem toggleSelect_set_toggle_witness :
    handleLegendClick ["A", "B"] "C" = ["A", "B", "C"] ∧
    handleLegendClick ["A", "B"] "A" = ["B"] ∧
    (("A" : String) ∈ handleLegendClick (handleLegendClick ["A", "B"] "A") "A" ↔
      ("A" : String) ∈ (["A", "B"] : List String)) := by
  refine ⟨?_, ?_, ((toggleSelect_set_toggle ["A", "B"] "A").2.2 "A")⟩
  · rw [(toggleSelect_set_toggle ["A", "B"] "C").1 (by decide)]
    rfl
  · rw [(toggleSelect_set_toggle ["A", "B"] "A").2.1 (by decide)]
    decide

/-- C7: the display domain is `[earliest - padding, latest + padding]` with
`padding = 0.05 * (latest - earliest)`, a fixed 10-second (10000 ms) padding
when the raw span is zero, and the placeholder `[0, 1]` when there are no
markers. -/
theorem chartDomain_padding (pgd : List ProcessedLine) :
    (pgd = [] → chartDomain pgd = (0, 1)) ∧
    (∀ tmin tmax : Int,
      tmin ∈ pgd.map (fun q => q.timestamp) →
      tmax ∈ pgd.map (fun q => q.timestamp) →
      (∀ u ∈ pgd.map (fun q => q.timestamp), tmin ≤ u ∧ u ≤ tmax) →
      chartDomain pgd =
        ((tmin : ℚ) - (if tmax = tmin then 10000
            else ((tmax : ℚ) - (tmin : ℚ)) * (5 / 100)),
         (tmax : ℚ) + (if tmax = tmin then 10000
            else ((tmax : ℚ) - (tmin : ℚ)) * (5 / 100)))) := by
  constructor
  · intro h
    rw [h]
    rfl
  · intro tmin tmax hminmem hmaxmem hbound
    match pgd with
    | [] => simp at hminmem
    | p :: rest =>
        have hmineq : ((p :: rest).map (fun q => q.timestamp)).foldl min p.timestamp = tmin := by
          apply le_antisymm
          · exact foldl_min_le_mem _ p.timestamp tmin hminmem
          · have h2 := foldl_min_mem ((p :: rest).map (fun q => q.timestamp)) p.timestamp
            rcases List.mem_cons.1 h2 with h3 | h3
            · rw [h3]
              exact (hbound p.timestamp (by simp)).1
            · exact (hbound _ h3).1
        have hmaxeq : ((p :: rest).map (fun q => q.timestamp)).foldl max p.timestamp = tmax := by
          apply le_antisymm
          · have h2 := foldl_max_mem ((p :: rest).map (fun q => q.timestamp)) p.timestamp
            rcases List.mem_cons.1 h2 with h3 | h3
            · rw [h3]
              exact (hbound p.timestamp (by simp)).2
            · exact (hbound _ h3).2
          · exact foldl_max_mem_le _ p.timestamp tmax hmaxmem
        show
          (let allTimestamps := (p :: rest).map (fun q => q.timestamp)
           let minTime := allTimestamps.foldl min p.timestamp
           let maxTime := allTimestamps.foldl max p.timestamp
           let padding : ℚ :=
             if ((maxTime : ℚ) - (minTime : ℚ)) * (5 / 100) = 0 then 10000
             else ((maxTime : ℚ) - (minTime : ℚ)) * (5 / 100)
           ((minTime : ℚ) - padding, (maxTime : ℚ) + padding)) = _
        simp only [hmineq, hmaxeq]
        have hcond : (((tmax : ℚ) - (tmin : ℚ)) * (5 / 100) = 0) ↔ tmax = tmin := by
          rw [mul_eq_zero]
          constructor
          · intro h
            rcases h with h | h
            · have h2 : (tmax : ℚ) = (tmin : ℚ) := by linarith
              exact_mod_cast h2
            · norm_num at h
          · intro h
            rw [h]
            left
            ring
        by_cases hz : tmax = tmin
        · rw [if_pos (hcond.2 hz), if_pos hz]
        · rw [if_neg (fun hc => hz (hcond.1 hc)), if_neg hz]

/-- C7 witness: the three domain shapes at concrete inputs — no markers,
a two-point span of 1000 ms (padding 50 ms), and a zero span (fixed
10000 ms padding). -/
theorem chartDomain_padding_witness :
    chartDomain [] = (0, 1) ∧
    chartDomain [⟨"A", 1000, "#3b82f6", "Expected: A (start)", false, 0⟩,
                 ⟨"A", 2000, "#3b82f6", "Expected: A (end)", true, 0⟩] = (950, 2050) ∧
    chartDomain [⟨"B", 1000, "#ef4444", "Actual: B", false, 0⟩] = (-9000, 11000) := by
  refine ⟨(chartDomain_padding []).1 rfl, ?_, ?_⟩
  · have h := (chartDomain_padding
      [⟨"A", 1000, "#3b82f6", "Expected: A (start)", false, 0⟩,
       ⟨"A", 2000, "#3b82f6", "Expected: A (end)", true, 0⟩]).2 1000 2000
      (by decide) (by decide) (by decide)
    rw [h]
    norm_num
  · have h := (chartDomain_padding
      [⟨"B", 1000, "#ef4444", "Actual: B", false, 0⟩]).2 1000 1000
      (by decide) (by decide) (by decide)
    rw [h]
    norm_num

/-- C10: splitting never yields an empty line list (so the
`lines.length === 0` early return of `parseCsv` is unreachable), and an empty
or whitespace-only input is parsed as a header lacking both required columns,
producing the format error rather than an empty record sequence. -/
theorem parseCsv_emptyInput (s : String) :
    csvLines s ≠ [] ∧
    (jsTrim s = "" →
      parseCsv s = .error "CSV must contain METRICID and TIMESTAMP columns.") := by
  refine ⟨csvLines_ne_nil s, fun h => ?_⟩
  unfold parseCsv csvLines
  rw [h]
  rfl

/-- C10 witness: a whitespace-only upload fails with the format error, and
its split still yields one (empty) line. -/
theorem parseCsv_emptyInput_witness :
    parseCsv " \n " = .error "CSV must contain METRICID and TIMESTAMP columns." ∧
    csvLines " \n " ≠ [] :=
  ⟨(parseCsv_emptyInput " \n ").2 (by decide), (parseCsv_emptyInput " \n ").1⟩

/-- C5: when the header row lacks both required columns (exact, case-sensitive
match), `parseCsv` fails with the format error and the upload handler leaves
the previously loaded data set untouched; when parsing succeeds, no error is
raised and the parsed records replace the data set. -/
theorem parseCsv_formatError_noPartialOverwrite (s : AppState) (text : String) :
    ("METRICID" ∉ rowValues ((csvLines text).headD "") →
     "TIMESTAMP" ∉ rowValues ((csvLines text).headD "") →
      parseCsv text = .error "CSV must contain METRICID and TIMESTAMP columns." ∧
      handleFileUpload s text = (s, false)) ∧
    (∀ d, parseCsv text = .ok d →
      handleFileUpload s text = ({ s with csvData := d }, true)) := by
  constructor
  · intro hm _
    have hidx : (rowValues ((csvLines text).headD "")).indexOf? "METRICID" = none := by
      unfold List.indexOf?
      rw [List.findIdx?_eq_none_iff]
      intro x hx
      simp only [beq_eq_false_iff_ne, ne_eq]
      intro heq
      exact hm (heq ▸ hx)
    have herr : parseCsv text = .error "CSV must contain METRICID and TIMESTAMP columns." := by
      unfold parseCsv
      rw [if_neg (csvLines_ne_nil text)]
      dsimp only
      rw [hidx]
    refine ⟨herr, ?_⟩
    unfold handleFileUpload
    rw [herr]
  · intro d hok
    unfold handleFileUpload
    rw [hok]

/-- C5 witness: a header `foo,bar` fails and leaves the loaded data set (and
the rest of the state) unchanged; a well-formed upload replaces it. -/
theorem parseCsv_formatError_noPartialOverwrite_witness :
    (parseCsv "foo,bar\nx,y" = .error "CSV must contain METRICID and TIMESTAMP columns." ∧
     handleFileUpload
       ⟨[⟨"A", "t1"⟩], "A", "", "", "", "#3b82f6", "#ef4444", "#f59e0b", "#6b7280", ["A"], none⟩
       "foo,bar\nx,y" =
      (⟨[⟨"A", "t1"⟩], "A", "", "", "", "#3b82f6", "#ef4444", "#f59e0b", "#6b7280", ["A"], none⟩,
       false)) ∧
    handleFileUpload
      ⟨[⟨"A", "t1"⟩], "A", "", "", "", "#3b82f6", "#ef4444", "#f59e0b", "#6b7280", ["A"], none⟩
      "METRICID,TIMESTAMP\nB,t2" =
      (⟨[⟨"B", "t2"⟩], "A", "", "", "", "#3b82f6", "#ef4444", "#f59e0b", "#6b7280", ["A"], none⟩,
       true) :=
  ⟨(parseCsv_formatError_noPartialOverwrite
      ⟨[⟨"A", "t1"⟩], "A", "", "", "", "#3b82f6", "#ef4444", "#f59e0b", "#6b7280", ["A"], none⟩
      "foo,bar\nx,y").1 (by decide) (by decide),
   (parseCsv_formatError_noPartialOverwrite
      ⟨[⟨"A", "t1"⟩], "A", "", "", "", "#3b82f6", "#ef4444", "#f59e0b", "#6b7280", ["A"], none⟩
      "METRICID,TIMESTAMP\nB,t2").2 [⟨"B", "t2"⟩] (by rfl)⟩

/-- C8: with both required columns located, parsing never raises: every data
row with too few fields is silently dropped, and every sufficiently long row
contributes exactly one record made of the values at the identifier and
timestamp column positions. -/
theorem parseCsv_rowHandling (text : String) (metricIdIndex timestampIndex : Nat)
    (h1 : (rowValues ((csvLines text).headD "")).indexOf? "METRICID" = some metricIdIndex)
    (h2 : (rowValues ((csvLines text).headD "")).indexOf? "TIMESTAMP" = some timestampIndex) :
    parseCsv text =
      .ok (((csvLines text).drop 1).flatMap (rowRecord metricIdIndex timestampIndex)) ∧
    ∀ line : String,
      ((rowValues line).length ≤ max metricIdIndex timestampIndex →
        rowRecord metricIdIndex timestampIndex line = []) ∧
      (max metricIdIndex timestampIndex < (rowValues line).length →
        rowRecord metricIdIndex timestampIndex line =
          [⟨(rowValues line).getD metricIdIndex "",
            (rowValues line).getD timestampIndex ""⟩]) := by
  refine ⟨?_, ?_⟩
  · unfold parseCsv
    rw [if_neg (csvLines_ne_nil text)]
    dsimp only
    rw [h1, h2]
    dsimp only
    rw [foldl_append_eq_flatMap (rowRecord metricIdIndex timestampIndex)
      ((csvLines text).drop 1) []]
    rw [List.nil_append]
  · intro line
    constructor
    · intro hle
      unfold rowRecord
      rw [if_neg (by omega)]
    · intro hlt
      unfold rowRecord
      rw [if_pos hlt]

/-- C8 witness: in a batch with one short row, the short row is dropped
without error and the two sufficient rows each contribute one record from the
identifier and timestamp columns. -/
theorem parseCsv_rowHandling_witness :
    parseCsv "METRICID,TIMESTAMP\nA,t1\nshort\nB,t2,extra" =
      .ok [⟨"A", "t1"⟩, ⟨"B", "t2"⟩] ∧
    rowRecord 0 1 "short" = [] ∧
    rowRecord 0 1 "B,t2,extra" = [⟨"B", "t2"⟩] := by
  have h := parseCsv_rowHandling "METRICID,TIMESTAMP\nA,t1\nshort\nB,t2,extra" 0 1
    (by decide) (by decide)
  refine ⟨?_, (h.2 "short").1 (by decide), ?_⟩
  · rw [h.1]
    rfl
  · rw [(h.2 "B,t2,extra").2 (by decide)]
    rfl

/-- C3: the temporal reduction of one identifier's parsed timestamps: no
timestamps give no marker, one timestamp gives exactly one instant marker at
that timestamp, and two or more give exactly the two interval markers at the
minimum and maximum timestamps (start ≤ end), no interior timestamp ever
appearing in the output. -/
theorem temporalReduction_cases (metricId color baseLabel : String) (ts : List Int) :
    (ts = [] → markersFor metricId color baseLabel (sortTimestamps ts) = []) ∧
    (∀ t : Int, ts = [t] →
      markersFor metricId color baseLabel (sortTimestamps ts) =
        [⟨metricId, t, color, baseLabel, false, 0⟩]) ∧
    (2 ≤ ts.length → ∃ tmin tmax : Int,
      tmin ∈ ts ∧ tmax ∈ ts ∧ (∀ u ∈ ts, tmin ≤ u ∧ u ≤ tmax) ∧ tmin ≤ tmax ∧
      markersFor metricId color baseLabel (sortTimestamps ts) =
        [⟨metricId, tmin, color, baseLabel ++ " (start)", false, 0⟩,
         ⟨metricId, tmax, color, baseLabel ++ " (end)", true, 0⟩] ∧
      ∀ e ∈ markersFor metricId color baseLabel (sortTimestamps ts),
        e.timestamp = tmin ∨ e.timestamp = tmax) := by
  refine ⟨?_, ?_, ?_⟩
  · intro h
    rw [h]
    rfl
  · intro t h
    rw [h]
    rfl
  · intro hlen
    have hlen2 : 2 ≤ (sortTimestamps ts).length := by
      rw [sortTimestamps_length]
      exact hlen
    obtain ⟨a, b, rest, hs⟩ : ∃ a b rest, sortTimestamps ts = a :: b :: rest := by
      cases h0 : sortTimestamps ts with
      | nil =>
          rw [h0] at hlen2
          simp at hlen2
      | cons a l =>
          cases l with
          | nil =>
              rw [h0] at hlen2
              simp at hlen2
          | cons b rest => exact ⟨a, b, rest, rfl⟩
    have hpw : (a :: b :: rest).Pairwise (fun x y : Int => x ≤ y) := by
      rw [← hs]
      exact sortTimestamps_pairwise ts
    have hperm : List.Perm (a :: b :: rest) ts := by
      rw [← hs]
      exact sortTimestamps_perm ts
    have hmemiff : ∀ u : Int, u ∈ (a :: b :: rest) ↔ u ∈ ts := fun u => hperm.mem_iff
    refine ⟨a, (b :: rest).getLastD a, ?_, ?_, ?_, ?_, ?_, ?_⟩
    · exact (hmemiff a).1 (List.mem_cons_self _ _)
    · refine (hmemiff _).1 ?_
      exact List.getLastD_mem_cons (b :: rest) a
    · intro u hu
      have hu2 := (hmemiff u).2 hu
      refine ⟨pairwise_head_le a (b :: rest) hpw u hu2, ?_⟩
      have h3 := pairwise_le_getLastD 0 (a :: b :: rest) hpw u hu2
      rwa [List.getLastD_cons] at h3
    · exact pairwise_head_le a (b :: rest) hpw _ (List.getLastD_mem_cons (b :: rest) a)
    · rw [hs]
      rfl
    · intro e he
      rw [hs] at he
      rcases List.mem_cons.1 he with h3 | h3
      · left
        rw [h3]
      · right
        rw [List.mem_singleton.1 h3]

/-- C3 witness: empty, singleton and three-element timestamp groups for a
concrete identifier; the three-element group reduces to the extremes 1 and 3
only. -/
theorem temporalReduction_cases_witness :
    markersFor "B" "#ef4444" "Actual: B" (sortTimestamps []) = [] ∧
    markersFor "B" "#ef4444" "Actual: B" (sortTimestamps [5]) =
      [⟨"B", 5, "#ef4444", "Actual: B", false, 0⟩] ∧
    ∃ tmin tmax : Int,
      tmin ∈ ([3, 1, 2] : List Int) ∧ tmax ∈ ([3, 1, 2] : List Int) ∧
      (∀ u ∈ ([3, 1, 2] : List Int), tmin ≤ u ∧ u ≤ tmax) ∧ tmin ≤ tmax ∧
      markersFor "B" "#ef4444" "Actual: B" (sortTimestamps [3, 1, 2]) =
        [⟨"B", tmin, "#ef4444", "Actual: B (start)", false, 0⟩,
         ⟨"B", tmax, "#ef4444", "Actual: B (end)", true, 0⟩] ∧
      ∀ e ∈ markersFor "B" "#ef4444" "Actual: B" (sortTimestamps [3, 1, 2]),
        e.timestamp = tmin ∨ e.timestamp = tmax :=
  ⟨(temporalReduction_cases "B" "#ef4444" "Actual: B" []).1 rfl,
   (temporalReduction_cases "B" "#ef4444" "Actual: B" [5]).2.1 5 rfl,
   (temporalReduction_cases "B" "#ef4444" "Actual: B" [3, 1, 2]).2.2 (by decide)⟩

/-- C2: the rendered timeline is sorted non-decreasing by timestamp, and for
every timestamp value the entries carrying it appear in exactly the order the
per-identifier-group pass inserted them (stable sort). -/
theorem timeline_sorted_stable (parseISO : String → Option Int) (cfg : RuleConfig)
    (csvData : List MetricData) :
    List.Pairwise tsLe ((processedGraph parseISO cfg csvData).processedGraphData) ∧
    ∀ t : Int,
      ((processedGraph parseISO cfg csvData).processedGraphData.filter
        (fun e => e.timestamp == t)) =
      ((entriesAndLegend cfg (buildMaps parseISO csvData).1).1.filter
        (fun e => e.timestamp == t)) := by
  constructor
  · show List.Pairwise tsLe
      (sortGraphElements (entriesAndLegend cfg (buildMaps parseISO csvData).1).1)
    exact List.sorted_insertionSort tsLe _
  · intro t
    exact insertionSort_filter_ts _ t

/-- C4: classification is strictly first-match in the configured rule order
(the if-chain equals first-match over the ordered rule list); an identifier in
both the expected and actual member sets is classified expected; an identifier
matching no rule contributes no timeline entry and no legend entry. -/
theorem classification_firstMatch (cfg : RuleConfig) (metricId : String) :
    classify cfg metricId = (firstMatch (ruleOrder cfg) metricId).map
        (fun r => (r.color, r.categoryName ++ ": " ++ metricId)) ∧
    (metricId ∈ cfg.expectedMetrics → metricId ∈ cfg.actualMetrics →
      classify cfg metricId = some (cfg.expectedColor, "Expected: " ++ metricId)) ∧
    (classify cfg metricId = none →
      ∀ (parseISO : String → Option Int) (csvData : List MetricData),
        (processedGraph parseISO cfg csvData).processedGraphData.filter
            (fun e => e.metricId == metricId) = [] ∧
        (processedGraph parseISO cfg csvData).uniqueMetrics.filter
            (fun m => m.id == metricId) = []) := by
  refine ⟨?_, ?_, ?_⟩
  · unfold classify firstMatch ruleOrder
    by_cases h1 : metricId ∈ cfg.expectedMetrics
    · rw [if_pos h1, List.find?_cons_of_pos _ (by simpa using h1)]
      rfl
    · rw [if_neg h1, List.find?_cons_of_neg _ (by simpa using h1)]
      by_cases h2 : metricId ∈ cfg.actualMetrics
      · rw [if_pos h2, List.find?_cons_of_pos _ (by simpa using h2)]
        rfl
      · rw [if_neg h2, List.find?_cons_of_neg _ (by simpa using h2)]
        by_cases h3 : metricId ∈ cfg.missingMetrics
        · rw [if_pos h3, List.find?_cons_of_pos _ (by simpa using h3)]
          rfl
        · rw [if_neg h3, List.find?_cons_of_neg _ (by simpa using h3)]
          by_cases h4 : metricId ∈ cfg.noiseMetrics
          · rw [if_pos h4, List.find?_cons_of_pos _ (by simpa using h4)]
            rfl
          · rw [if_neg h4, List.find?_cons_of_neg _ (by simpa using h4)]
            rfl
  · intro h1 _
    unfold classify
    rw [if_pos h1]
  · intro hnone parseISO csvData
    constructor
    · rw [List.filter_eq_nil_iff]
      intro e he
      have he2 : e ∈ (entriesAndLegend cfg (buildMaps parseISO csvData).1).1 := by
        have hperm : List.Perm
            ((processedGraph parseISO cfg csvData).processedGraphData)
            ((entriesAndLegend cfg (buildMaps parseISO csvData).1).1) :=
          List.perm_insertionSort tsLe _
        exact hperm.mem_iff.1 he
      have hsome := (entriesAndLegend_fst_mem cfg _ e he2).2
      simp only [beq_iff_eq]
      intro heq
      rw [heq, hnone] at hsome
      simp at hsome
    · rw [List.filter_eq_nil_iff]
      intro m hm
      have hm2 : m ∈ addMissingLegend cfg (buildMaps parseISO csvData).2
          (entriesAndLegend cfg (buildMaps parseISO csvData).1).2 := by
        have hperm : List.Perm
            ((processedGraph parseISO cfg csvData).uniqueMetrics)
            (addMissingLegend cfg (buildMaps parseISO csvData).2
              (entriesAndLegend cfg (buildMaps parseISO csvData).1).2) :=
          List.perm_insertionSort idLe _
        exact hperm.mem_iff.1 hm
      simp only [beq_iff_eq]
      intro heq
      rcases missingStep_mem cfg (buildMaps parseISO csvData).2 cfg.missingMetrics _ m hm2
        with h2 | h2
      · rcases foldl_elStep_snd_mem cfg _ ([], []) m h2 with h3 | h3
        · simp at h3
        · rw [heq, hnone] at h3
          simp at h3
      · have h3 := h2.1
        rw [heq] at h3
        rw [classify_eq_none_iff] at hnone
        exact hnone.2.2.1 h3

/-- C4 witness: with `A` declared both expected and actual, classification
yields the expected category; the unmatched identifier `Z` present in the
data produces no timeline entry and no legend entry. -/
theorem classification_firstMatch_witness :
    classify ⟨["A"], ["A", "B"], [], [], "#3b82f6", "#ef4444", "#f59e0b", "#6b7280"⟩ "A"
      = some ("#3b82f6", "Expected: A") ∧
    ((processedGraph (fun s => if s = "t1" then some 1000 else none)
        ⟨["A"], ["A", "B"], [], [], "#3b82f6", "#ef4444", "#f59e0b", "#6b7280"⟩
        [⟨"Z", "t1"⟩]).processedGraphData.filter (fun e => e.metricId == "Z") = [] ∧
     (processedGraph (fun s => if s = "t1" then some 1000 else none)
        ⟨["A"], ["A", "B"], [], [], "#3b82f6", "#ef4444", "#f59e0b", "#6b7280"⟩
        [⟨"Z", "t1"⟩]).uniqueMetrics.filter (fun m => m.id == "Z") = []) :=
  ⟨(classification_firstMatch
      ⟨["A"], ["A", "B"], [], [], "#3b82f6", "#ef4444", "#f59e0b", "#6b7280"⟩ "A").2.1
      (by decide) (by decide),
   (classification_firstMatch
      ⟨["A"], ["A", "B"], [], [], "#3b82f6", "#ef4444", "#f59e0b", "#6b7280"⟩ "Z").2.2
      (by decide) (fun s => if s = "t1" then some 1000 else none) [⟨"Z", "t1"⟩]⟩

/-- C1 counterexample: identifier `A` is declared in the expected category's
member set and absent from the (empty) data, yet the pipeline emits zero
legend entries for it, not exactly one — the declared-but-absent legend pass
exists only for the missing category. -/
theorem declaredAbsent_allCategories_counterexample :
    "A" ∈ (⟨["A"], [], [], [], "#3b82f6", "#ef4444", "#f59e0b", "#6b7280"⟩
      : RuleConfig).expectedMetrics ∧
    (∀ row ∈ ([] : List MetricData), row.METRICID ≠ "A") ∧
    ((processedGraph (fun _ => none)
        ⟨["A"], [], [], [], "#3b82f6", "#ef4444", "#f59e0b", "#6b7280"⟩
        []).uniqueMetrics.filter (fun m => m.id == "A")).length = 0 ∧
    ((processedGraph (fun _ => none)
        ⟨["A"], [], [], [], "#3b82f6", "#ef4444", "#f59e0b", "#6b7280"⟩
        []).uniqueMetrics.filter (fun m => m.id == "A")).length ≠ 1 := by
  decide

/-- C1 (amended): for the missing category, every identifier listed in the
missing member set but never occurring in any data row receives exactly one
legend entry, colored with the missing category's color, and zero timeline
entries. -/
theorem missingDeclaredAbsent_legend (parseISO : String → Option Int)
    (cfg : RuleConfig) (csvData : List MetricData) (metricId : String)
    (hm : metricId ∈ cfg.missingMetrics)
    (habs : ∀ row ∈ csvData, row.METRICID ≠ metricId) :
    (processedGraph parseISO cfg csvData).uniqueMetrics.filter
        (fun m => m.id == metricId) = [⟨metricId, cfg.missingColor⟩] ∧
    (processedGraph parseISO cfg csvData).processedGraphData.filter
        (fun e => e.metricId == metricId) = [] := by
  have hnotrow : metricId ∉ csvData.map MetricData.METRICID := by
    intro h
    rcases List.mem_map.1 h with ⟨row, hrow, heq⟩
    exact habs row hrow heq
  have hidall : metricId ∉ (buildMaps parseISO csvData).2 :=
    fun h => hnotrow (buildMaps_ids_sub parseISO csvData metricId h)
  have hkeys : metricId ∉ (buildMaps parseISO csvData).1.map Prod.fst :=
    fun h => hnotrow (buildMaps_keys_sub parseISO csvData metricId h)
  constructor
  · have hfil0 : (entriesAndLegend cfg (buildMaps parseISO csvData).1).2.filter
        (fun m => m.id == metricId) = [] := by
      rw [List.filter_eq_nil_iff]
      intro m hmem
      simp only [beq_iff_eq]
      intro heq
      rcases foldl_elStep_snd_mem cfg _ ([], []) m hmem with h2 | h2
      · simp at h2
      · rw [heq] at h2
        exact hkeys h2.1
    have hfil1 := missingFold_filter_adds cfg (buildMaps parseISO csvData).2 metricId
      hidall cfg.missingMetrics _ hm hfil0
    have hperm : List.Perm
        ((processedGraph parseISO cfg csvData).uniqueMetrics)
        (addMissingLegend cfg (buildMaps parseISO csvData).2
          (entriesAndLegend cfg (buildMaps parseISO csvData).1).2) :=
      List.perm_insertionSort idLe _
    have hperm2 := hperm.filter (fun m => m.id == metricId)
    rw [show addMissingLegend cfg (buildMaps parseISO csvData).2
        (entriesAndLegend cfg (buildMaps parseISO csvData).1).2
      = cfg.missingMetrics.foldl
          (missingStep cfg (buildMaps parseISO csvData).2)
          (entriesAndLegend cfg (buildMaps parseISO csvData).1).2 from rfl] at hperm2
    rw [hfil1] at hperm2
    exact List.perm_singleton.1 hperm2
  · rw [List.filter_eq_nil_iff]
    intro e he
    have hperm : List.Perm
        ((processedGraph parseISO cfg csvData).processedGraphData)
        ((entriesAndLegend cfg (buildMaps parseISO csvData).1).1) :=
      List.perm_insertionSort tsLe _
    have he2 := hperm.mem_iff.1 he
    have hin := (entriesAndLegend_fst_mem cfg _ e he2).1
    simp only [beq_iff_eq]
    intro heq
    rw [heq] at hin
    exact hkeys hin

/-- C1 witness: identifier `G` declared missing with one `A` data row:
exactly one legend entry with the missing color and zero timeline entries. -/
theorem missingDeclaredAbsent_legend_witness :
    (processedGraph (fun s => if s = "t1" then some 1000 else none)
        ⟨[], [], [], ["G"], "#3b82f6", "#ef4444", "#f59e0b", "#6b7280"⟩
        [⟨"A", "t1"⟩]).uniqueMetrics.filter (fun m => m.id == "G")
      = [⟨"G", "#6b7280"⟩] ∧
    (processedGraph (fun s => if s = "t1" then some 1000 else none)
        ⟨[], [], [], ["G"], "#3b82f6", "#ef4444", "#f59e0b", "#6b7280"⟩
        [⟨"A", "t1"⟩]).processedGraphData.filter (fun e => e.metricId == "G") = [] :=
  missingDeclaredAbsent_legend (fun s => if s = "t1" then some 1000 else none)
    ⟨[], [], [], ["G"], "#3b82f6", "#ef4444", "#f59e0b", "#6b7280"⟩
    [⟨"A", "t1"⟩] "G" (by decide) (by decide)

/-- C6 counterexample: an upload that replaces the identifier set (from `A` to
`B`) does not reset the selection state: the stale selection `["A"]`
persists instead of being cleared. -/
theorem selectionReset_counterexample :
    ((handleFileUpload
        ⟨[⟨"A", "t1"⟩], "A", "", "", "", "#3b82f6", "#ef4444", "#f59e0b", "#6b7280",
          ["A"], some "A"⟩
        "METRICID,TIMESTAMP\nB,t9").1.csvData.map MetricData.METRICID = ["B"]) ∧
    ((⟨[⟨"A", "t1"⟩], "A", "", "", "", "#3b82f6", "#ef4444", "#f59e0b", "#6b7280",
        ["A"], some "A"⟩ : AppState).csvData.map MetricData.METRICID = ["A"]) ∧
    ((handleFileUpload
        ⟨[⟨"A", "t1"⟩], "A", "", "", "", "#3b82f6", "#ef4444", "#f59e0b", "#6b7280",
          ["A"], some "A"⟩
        "METRICID,TIMESTAMP\nB,t9").1.selectedMetricIds = ["A"]) ∧
    ((handleFileUpload
        ⟨[⟨"A", "t1"⟩], "A", "", "", "", "#3b82f6", "#ef4444", "#f59e0b", "#6b7280",
          ["A"], some "A"⟩
        "METRICID,TIMESTAMP\nB,t9").1.selectedMetricIds ≠ []) := by
  decide

/-- C6 (amended): selection and hover state persist unchanged across every
upload (successful or failed) — they are never reset — and they never affect
which timeline entries or legend entries the derived structures contain. -/
theorem selection_frame (parseISO : String → Option Int) (s : AppState)
    (text : String) (sel : List String) (hov : Option String) :
    ((handleFileUpload s text).1.selectedMetricIds = s.selectedMetricIds ∧
     (handleFileUpload s text).1.hoveredMetricId = s.hoveredMetricId) ∧
    derivedOutput parseISO
        { s with selectedMetricIds := sel, hoveredMetricId := hov }
      = derivedOutput parseISO s ∧
    (renderedDots (derivedOutput parseISO s) sel hov).map Prod.fst
      = (derivedOutput parseISO s).processedGraphData := by
  refine ⟨?_, rfl, ?_⟩
  · unfold handleFileUpload
    cases parseCsv text <;> exact ⟨rfl, rfl⟩
  · unfold renderedDots
    rw [List.map_map]
    exact List.map_id _
